import Mathlib

/-!
Shallow embedding of
`tensorflow_probability/python/positive_semidefinite_kernels/exponentiated_quadratic.py`.

Tensors are modelled as real-valued functions on a multi-index determined by a
shape (a list of dimension sizes); kernel parameters are modelled with batch
shape `[]` (scalars), so `util.pad_shape_right_with_ones` applied to a parameter
produces a tensor that broadcasts as the same scalar against any grid, and the
padded parameter acts by scalar multiplication / division.  Construction-time
validation is modelled over rational parameter lists so positivity checks are
decidable.  Errors raised by the backend are modelled with an explicit error
type and `Except`.
-/

namespace ExpQuad

/-- A (fully known) tensor shape: the list of dimension sizes. -/
abbrev Shape := List ℕ

/-- Broadcast of two dimension sizes under the NumPy rule: a size-1 dimension
stretches to the other, equal sizes agree, anything else is incompatible. -/
def broadcastDim (n m : ℕ) : Option ℕ :=
  if n = 1 then some m
  else if m = 1 then some n
  else if n = m then some n
  else none

/-- Broadcast of two shapes given with their dimension lists reversed
(so that alignment is from the right); a missing dimension is treated
as size 1. -/
def broadcastRev : Shape → Shape → Option Shape
  | [], t => some t
  | s, [] => some s
  | n :: s, m :: t => do
      let d ← broadcastDim n m
      let r ← broadcastRev s t
      pure (d :: r)

/-- `tf.broadcast_static_shape` / `tf.broadcast_dynamic_shape` on fully known
shapes: NumPy-style broadcast, aligning dimensions from the right. -/
def broadcastShapes (s t : Shape) : Option Shape :=
  (broadcastRev s.reverse t.reverse).map List.reverse

/-- Failures surfaced by the modelled backend:
`validationError` for a failed `tf.assert_positive`,
`attributeError` for an attribute access on Python `None`
(e.g. `None.shape`), `typeConversionError` for `tf.shape(None)`
(tensor conversion of `None`), `shapeError` for incompatible broadcasts. -/
inductive TFError
  | validationError
  | attributeError
  | typeConversionError
  | shapeError
  deriving DecidableEq, Repr

/-- `self.<param>.shape` where the parameter is the stored `Option`:
Python raises `AttributeError` when the parameter is `None`. -/
def paramStaticShape : Option Shape → Except TFError Shape
  | none => Except.error TFError.attributeError
  | some s => Except.ok s

/-- `tf.shape(self.<param>)`: tensor conversion of `None` fails. -/
def paramDynamicShape : Option Shape → Except TFError Shape
  | none => Except.error TFError.typeConversionError
  | some s => Except.ok s

/-- `ExponentiatedQuadratic._batch_shape`:
`tf.broadcast_static_shape(self.amplitude.shape, self.length_scale.shape)`.
Each parameter is represented by its (optional) shape. -/
def batchShape (amplitudeShape lengthScaleShape : Option Shape) :
    Except TFError Shape := do
  let a ← paramStaticShape amplitudeShape
  let l ← paramStaticShape lengthScaleShape
  match broadcastShapes a l with
  | some s => Except.ok s
  | none => Except.error TFError.shapeError

/-- `ExponentiatedQuadratic._batch_shape_tensor`:
`tf.broadcast_dynamic_shape(tf.shape(self.amplitude), tf.shape(self.length_scale))`. -/
def batchShapeTensor (amplitudeShape lengthScaleShape : Option Shape) :
    Except TFError Shape := do
  let a ← paramDynamicShape amplitudeShape
  let l ← paramDynamicShape lengthScaleShape
  match broadcastShapes a l with
  | some s => Except.ok s
  | none => Except.error TFError.shapeError

/-- `tf.assert_positive`: fails unless every element is strictly positive.
Parameter values are modelled as flat lists of rationals. -/
def assertPositive (v : List ℚ) : Except TFError Unit :=
  if v.all fun x => decide (0 < x) then Except.ok () else Except.error TFError.validationError

/-- `_validate_arg_if_not_none(arg, tf.assert_positive, validate_args)`:
`None` passes through; otherwise, when `validate_args` is set, the positivity
assertion runs before the value is returned (via `tf.control_dependencies`),
and when it is not set the value is returned unchanged with no check. -/
def validateArgIfNotNone (arg : Option (List ℚ)) (validateArgs : Bool) :
    Except TFError (Option (List ℚ)) :=
  match arg with
  | none => Except.ok none
  | some v =>
      if validateArgs then do
        let _ ← assertPositive v
        Except.ok (some v)
      else Except.ok (some v)

/-- `ExponentiatedQuadratic.__init__`: wraps both parameters with
`_validate_arg_if_not_none` and stores the results.  (The
`tf.assert_same_float_dtype` check is vacuous here since all modelled
values share one element type.) -/
def EQinit (amplitude lengthScale : Option (List ℚ)) (validateArgs : Bool) :
    Except TFError (Option (List ℚ) × Option (List ℚ)) := do
  let a ← validateArgIfNotNone amplitude validateArgs
  let l ← validateArgIfNotNone lengthScale validateArgs
  Except.ok (a, l)

/-- Multi-index into a tensor of the given shape. -/
def Idx : Shape → Type
  | [] => Unit
  | n :: s => Fin n × Idx s

instance Idx.instFintype : (s : Shape) → Fintype (Idx s)
  | [] => inferInstanceAs (Fintype Unit)
  | _ :: s =>
      have := Idx.instFintype s
      inferInstanceAs (Fintype (Fin _ × Idx _))

instance Idx.instDecidableEq : (s : Shape) → DecidableEq (Idx s)
  | [] => inferInstanceAs (DecidableEq Unit)
  | _ :: s =>
      have := Idx.instDecidableEq s
      inferInstanceAs (DecidableEq (Fin _ × Idx _))

/-- Concatenation of a batch index and a feature index. -/
def Idx.append {f : Shape} : {b : Shape} → Idx b → Idx f → Idx (b ++ f)
  | [], _, j => j
  | _ :: _, i, j => (i.1, Idx.append i.2 j)

/-- A real-valued tensor of the given shape. -/
def Tensor (s : Shape) : Type := Idx s → ℝ

/-- `tf.squared_difference(x1, x2)`: elementwise `(x1 - x2)^2`. -/
def squaredDifference {s : Shape} (x1 x2 : Tensor s) : Tensor s :=
  fun i => (x1 i - x2 i) ^ 2

/-- Modelled from the spec: `util.sum_rightmost_ndims_preserving_shape`
(the `util` module is not under `src/`); per spec section 4.2 it sums the
trailing `feature_ndims` dimensions of a tensor, leaving the leading batch
dimensions untouched. -/
def sumRightmost {b f : Shape} (t : Tensor (b ++ f)) : Tensor b :=
  fun i => ∑ j : Idx f, t (i.append j)

/-- Elementwise tensor addition (backend `+` with equal shapes). -/
def tensorAdd {s : Shape} (x c : Tensor s) : Tensor s :=
  fun i => x i + c i

/-- `ExponentiatedQuadratic._apply(x1, x2, param_expansion_ndims)`:
`exponent = -0.5 * sum_rightmost(squared_difference(x1, x2), feature_ndims)`;
if `length_scale` is present, `exponent /= length_scale**2`;
`exponential = exp(exponent)`; if `amplitude` is present the result is
`amplitude * exponential`, else `exponential`.  Parameters have batch shape
`[]`, so `pad_shape_right_with_ones(param, param_expansion_ndims)` broadcasts
as the same scalar and the argument is dropped. -/
noncomputable def EQapply (amplitude lengthScale : Option ℝ) (b f : Shape)
    (x1 x2 : Tensor (b ++ f)) : Tensor b :=
  let exponent : Tensor b :=
    fun i => -0.5 * sumRightmost (squaredDifference x1 x2) i
  let exponentScaled : Tensor b :=
    match lengthScale with
    | some l => fun i => exponent i / l ^ 2
    | none => exponent
  let exponential : Tensor b := fun i => Real.exp (exponentScaled i)
  match amplitude with
  | some a => fun i => a * exponential i
  | none => exponential

/-- The example at index `i` of a batch of `e` feature vectors of length `D`. -/
def rowAt {e D : ℕ} (x : Tensor [e, D]) (i : Fin e) : Tensor [D] :=
  fun j => x (i, j)

/-- Modelled from the spec: `PositiveSemidefiniteKernel.matrix` (the base class
module is not under `src/`); per spec sections 4.4 and 4.5 it expands `x1` of
shape `[e1, D]` and `x2` of shape `[e2, D]` to the all-pairs grid of shape
`[e1, e2, D]` (inserting one singleton axis each, then broadcasting) and
invokes `_apply` with `param_expansion_ndims = 2`; the scalar parameters
padded right with two singleton axes again act as the same scalars. -/
noncomputable def EQmatrix (amplitude lengthScale : Option ℝ) {e1 e2 D : ℕ}
    (x1 : Tensor [e1, D]) (x2 : Tensor [e2, D]) : Tensor [e1, e2] :=
  EQapply amplitude lengthScale [e1, e2] [D]
    (fun idx => x1 (idx.1, idx.2.2))
    (fun idx => x2 (idx.2.1, idx.2.2))

/-! Helper lemmas shared between the theorems below. -/

/-- Closed form of `_apply` when both parameters are present. -/
lemma EQapply_some_some (a l : ℝ) (b f : Shape) (x1 x2 : Tensor (b ++ f))
    (i : Idx b) :
    EQapply (some a) (some l) b f x1 x2 i =
      a * Real.exp (-0.5 *
        (∑ j : Idx f, (x1 (i.append j) - x2 (i.append j)) ^ 2) / l ^ 2) := rfl

/-- A sum over the index set of shape `[1]` has a single term. -/
lemma sum_idx_one (g : Idx [1] → ℝ) : (∑ j : Idx [1], g j) = g (0, ()) := by
  rw [show (Finset.univ : Finset (Idx [1])) = {((0 : Fin 1), ())} from by decide]
  simp

lemma except_bind_ok {ε α β : Type} (a : α) (f : α → Except ε β) :
    (Except.ok a >>= f) = f a := rfl

lemma except_bind_error {ε α β : Type} (e : ε) (f : α → Except ε β) :
    ((Except.error e : Except ε α) >>= f) = Except.error e := rfl

/-- C1: for every pair of inputs and every kernel instance, `apply(x1, x2)`
equals `amplitude * exp(-0.5 * S / length_scale^2)`, where `S` is the sum over
the trailing feature dimensions of the squared per-coordinate differences; the
division by `length_scale^2` is skipped (divisor defaults to `1`) when
`length_scale` is absent, and the multiplication by the unsquared `amplitude`
is skipped (factor defaults to `1`) when `amplitude` is absent. -/
theorem apply_closed_form (amplitude lengthScale : Option ℝ) (b f : Shape)
    (x1 x2 : Tensor (b ++ f)) (i : Idx b) :
    EQapply amplitude lengthScale b f x1 x2 i =
      amplitude.getD 1 *
        Real.exp (-0.5 * (∑ j : Idx f, (x1 (i.append j) - x2 (i.append j)) ^ 2) /
          lengthScale.getD 1 ^ 2) := by
  cases amplitude <;> cases lengthScale <;>
    simp [EQapply, sumRightmost, squaredDifference]

/-- C2: the claim fails on the code.  With `amplitude` absent, `_batch_shape`
evaluates `None.shape` (an `AttributeError`) and `_batch_shape_tensor`
evaluates `tf.shape(None)` (a failing tensor conversion), so neither returns
the broadcast `[3]` that treating the absent parameter as shape `()` would
give (third conjunct). -/
theorem batch_shape_fails_on_absent_param :
    batchShape none (some [3]) = Except.error TFError.attributeError ∧
    batchShapeTensor none (some [3]) = Except.error TFError.typeConversionError ∧
    broadcastShapes [] [3] = some [3] :=
  ⟨rfl, rfl, rfl⟩

/-- C3: with `validate_args = false` construction returns each present
parameter unchanged and never raises, even for non-positive values; with
`validate_args = true` it raises `ValidationError` whenever a present
parameter has a non-positive element. -/
theorem validate_args_gating :
    (∀ a l : Option (List ℚ), EQinit a l false = Except.ok (a, l)) ∧
    (∀ a l : Option (List ℚ),
      ((∃ v, a = some v ∧ ∃ x ∈ v, x ≤ 0) ∨ (∃ v, l = some v ∧ ∃ x ∈ v, x ≤ 0)) →
      EQinit a l true = Except.error TFError.validationError) := by
  constructor
  · intro a l
    cases a <;> cases l <;> rfl
  · rintro a l (⟨v, rfl, x, hx, hx0⟩ | ⟨v, rfl, x, hx, hx0⟩)
    · have hall : (v.all fun y => decide (0 < y)) = false := by
        rw [List.all_eq_false]
        exact ⟨x, hx, by simpa using hx0⟩
      simp [EQinit, validateArgIfNotNone, assertPositive, hall,
        except_bind_ok, except_bind_error]
    · have hall : (v.all fun y => decide (0 < y)) = false := by
        rw [List.all_eq_false]
        exact ⟨x, hx, by simpa using hx0⟩
      cases a with
      | none =>
          simp [EQinit, validateArgIfNotNone, assertPositive, hall,
            except_bind_ok, except_bind_error]
      | some w =>
          by_cases hw : (w.all fun y => decide (0 < y)) = true
          · simp [EQinit, validateArgIfNotNone, assertPositive, hall, hw,
              except_bind_ok, except_bind_error]
          · simp [EQinit, validateArgIfNotNone, assertPositive, hall,
              eq_false_of_ne_true hw, except_bind_ok, except_bind_error]

/-- Witness for C3 at the example from the spec, `length_scale = -1`. -/
theorem validate_args_gating_witness :
    EQinit none (some [-1]) false = Except.ok (none, some [-1]) ∧
    EQinit none (some [-1]) true = Except.error TFError.validationError :=
  ⟨validate_args_gating.1 none (some [-1]),
   validate_args_gating.2 none (some [-1])
     (Or.inr ⟨[-1], rfl, -1, by simp, by norm_num⟩)⟩

/-- C4: self-similarity: with both parameters present, `apply(v, v) = a`
(the exponent is exactly zero, `exp 0 = 1`, and the result is the unsquared
amplitude). -/
theorem apply_self_similarity (a l : ℝ) (f : Shape) (v : Tensor f) :
    EQapply (some a) (some l) [] f v v () = a := by
  simp [EQapply, sumRightmost, squaredDifference]

/-- C5: symmetry: `apply(x, y) = apply(y, x)` for every kernel instance. -/
theorem apply_symmetric (amplitude lengthScale : Option ℝ) (b f : Shape)
    (x y : Tensor (b ++ f)) :
    EQapply amplitude lengthScale b f x y = EQapply amplitude lengthScale b f y x := by
  have h : squaredDifference x y = squaredDifference y x := by
    funext i
    simp only [squaredDifference]
    ring
  simp only [EQapply, h]

/-- C6: absent-parameter identity: `amplitude = None` gives the same result as
`amplitude = 1`, and `length_scale = None` gives the same result as
`length_scale = 1`, other arguments equal. -/
theorem apply_absent_param_identity (b f : Shape) (x1 x2 : Tensor (b ++ f)) :
    (∀ lengthScale : Option ℝ,
       EQapply none lengthScale b f x1 x2 = EQapply (some 1) lengthScale b f x1 x2) ∧
    (∀ amplitude : Option ℝ,
       EQapply amplitude none b f x1 x2 = EQapply amplitude (some 1) b f x1 x2) := by
  constructor
  · intro ls
    cases ls <;> simp [EQapply]
  · intro amp
    cases amp <;> simp [EQapply]

/-- C9: translation invariance: shifting both inputs by the same tensor `c`
leaves `apply` unchanged, since the result depends on the inputs only through
their elementwise difference. -/
theorem apply_translation_invariant (amplitude lengthScale : Option ℝ)
    (b f : Shape) (x1 x2 c : Tensor (b ++ f)) :
    EQapply amplitude lengthScale b f (tensorAdd x1 c) (tensorAdd x2 c) =
      EQapply amplitude lengthScale b f x1 x2 := by
  have h : squaredDifference (tensorAdd x1 c) (tensorAdd x2 c) =
      squaredDifference x1 x2 := by
    funext i
    simp only [squaredDifference, tensorAdd]
    ring
  simp only [EQapply, h]

/-- C7: monotonic decay: with positive `amplitude` and `length_scale`, the
kernel value strictly decreases as the Euclidean distance between the inputs
increases. -/
theorem apply_monotone_decay (a l : ℝ) (f : Shape) (x1 y1 x2 y2 : Tensor f)
    (ha : 0 < a) (hl : 0 < l)
    (hdist : Real.sqrt (∑ j : Idx f, (x1 j - y1 j) ^ 2) <
             Real.sqrt (∑ j : Idx f, (x2 j - y2 j) ^ 2)) :
    EQapply (some a) (some l) [] f x2 y2 () < EQapply (some a) (some l) [] f x1 y1 () := by
  have hS1 : 0 ≤ ∑ j : Idx f, (x1 j - y1 j) ^ 2 :=
    Finset.sum_nonneg fun j _ => sq_nonneg _
  have hlt : (∑ j : Idx f, (x1 j - y1 j) ^ 2) < ∑ j : Idx f, (x2 j - y2 j) ^ 2 :=
    (Real.sqrt_lt_sqrt_iff hS1).mp hdist
  have hl2 : (0 : ℝ) < l ^ 2 := by positivity
  have hexp : -0.5 * (∑ j : Idx f, (x2 j - y2 j) ^ 2) / l ^ 2 <
      -0.5 * (∑ j : Idx f, (x1 j - y1 j) ^ 2) / l ^ 2 := by
    apply div_lt_div_of_pos_right _ hl2
    nlinarith
  have h1 : EQapply (some a) (some l) [] f x1 y1 () =
      a * Real.exp (-0.5 * (∑ j : Idx f, (x1 j - y1 j) ^ 2) / l ^ 2) := rfl
  have h2 : EQapply (some a) (some l) [] f x2 y2 () =
      a * Real.exp (-0.5 * (∑ j : Idx f, (x2 j - y2 j) ^ 2) / l ^ 2) := rfl
  rw [h1, h2]
  exact mul_lt_mul_of_pos_left (Real.exp_lt_exp.mpr hexp) ha

/-- Witness for C7: amplitude `1`, length scale `1`, one feature dimension,
distance `0` versus distance `1`. -/
theorem apply_monotone_decay_witness :
    EQapply (some 1) (some 1) [] [1] (fun _ => (0 : ℝ)) (fun _ => 1) () <
    EQapply (some 1) (some 1) [] [1] (fun _ => (0 : ℝ)) (fun _ => 0) () :=
  apply_monotone_decay 1 1 [1] (fun _ => 0) (fun _ => 0) (fun _ => 0) (fun _ => 1)
    one_pos one_pos
    (by rw [sum_idx_one, sum_idx_one]; norm_num)

/-- C8: `matrix(x1, x2)` for `x1` of shape `[5, D]` and `x2` of shape `[7, D]`
with `feature_ndims = 1` has shape `[5, 7]` (its type), and its entry at
`(i, j)` equals `apply(x1[i], x2[j])`. -/
theorem matrix_agrees_with_apply (amplitude lengthScale : Option ℝ) (D : ℕ)
    (x1 : Tensor [5, D]) (x2 : Tensor [7, D]) (i : Fin 5) (j : Fin 7) :
    EQmatrix amplitude lengthScale x1 x2 (i, j, ()) =
      EQapply amplitude lengthScale [] [D] (rowAt x1 i) (rowAt x2 j) () := by
  cases amplitude <;> cases lengthScale <;> rfl

/-- C10: bounded positive range: with positive parameters,
`0 < apply(x1, x2) ≤ amplitude`, with equality exactly when the summed
squared difference is zero. -/
theorem apply_bounded_positive (a l : ℝ) (b f : Shape) (x1 x2 : Tensor (b ++ f))
    (i : Idx b) (ha : 0 < a) (hl : 0 < l) :
    0 < EQapply (some a) (some l) b f x1 x2 i ∧
    EQapply (some a) (some l) b f x1 x2 i ≤ a ∧
    (EQapply (some a) (some l) b f x1 x2 i = a ↔
      (∑ j : Idx f, (x1 (i.append j) - x2 (i.append j)) ^ 2) = 0) := by
  rw [EQapply_some_some]
  set S := ∑ j : Idx f, (x1 (i.append j) - x2 (i.append j)) ^ 2 with hSdef
  have hS : 0 ≤ S := Finset.sum_nonneg fun j _ => sq_nonneg _
  have hl2 : (0 : ℝ) < l ^ 2 := by positivity
  have hnonpos : -0.5 * S / l ^ 2 ≤ 0 := by
    apply div_nonpos_of_nonpos_of_nonneg _ (le_of_lt hl2)
    nlinarith
  refine ⟨by positivity, ?_, ?_⟩
  · calc a * Real.exp (-0.5 * S / l ^ 2) ≤ a * 1 :=
          mul_le_mul_of_nonneg_left (Real.exp_le_one_iff.mpr hnonpos) (le_of_lt ha)
      _ = a := mul_one a
  · constructor
    · intro h
      have hxy : Real.exp (-0.5 * S / l ^ 2) = 1 :=
        mul_left_cancel₀ (ne_of_gt ha) (by rw [h, mul_one])
      have h0 : -0.5 * S / l ^ 2 = 0 :=
        Real.exp_injective (by rw [Real.exp_zero]; exact hxy)
      rcases div_eq_zero_iff.mp h0 with h1 | h1
      · linarith
      · exact absurd h1 (ne_of_gt hl2)
    · intro h
      rw [h]
      norm_num

/-- Witness for C10: amplitude `2`, length scale `1`, inputs `0` and `1` in
one feature dimension. -/
theorem apply_bounded_positive_witness :
    0 < EQapply (some 2) (some 1) [] [1] (fun _ => (0 : ℝ)) (fun _ => 1) () ∧
    EQapply (some 2) (some 1) [] [1] (fun _ => (0 : ℝ)) (fun _ => 1) () ≤ 2 ∧
    (EQapply (some 2) (some 1) [] [1] (fun _ => (0 : ℝ)) (fun _ => 1) () = 2 ↔
      (∑ _j : Idx [1], ((0 : ℝ) - 1) ^ 2) = 0) :=
  apply_bounded_positive 2 1 [] [1] (fun _ => 0) (fun _ => 1) ()
    (by norm_num) (by norm_num)

end ExpQuad
